import Mathlib

/-!
# Verification of the MCP protocol engine and transports

Shallow embedding of the protocol engine (`src/lib/mcp-server.js`), the
line-framed byte-stream transport (`src/transports/stdio-transport.js`) and the
session-multiplexed push transport (`http-sse-transport.js`), together with
proofs of the spec's testable properties.

JavaScript strings processed by the framing layer are modelled as `List Char`;
decoded JSON values as the inductive `Json`; the host primitives
`JSON.stringify` / `JSON.parse` are external to the repository and appear as
function parameters.
-/

namespace Mcp

/-- Decoded JSON values (the result of `JSON.parse` / `express.json()`). -/
inductive Json : Type where
  | null : Json
  | bool (b : Bool) : Json
  | num  (n : Int) : Json
  | str  (s : String) : Json
  | arr  (xs : List Json) : Json
  | obj  (kvs : List (String × Json)) : Json

/-- Property access `v[k]` on a JSON value: defined only on objects,
`undefined` (here `none`) otherwise. -/
def Json.getField : Json → String → Option Json
  | .obj kvs, k => kvs.lookup k
  | _, _ => none

/-- A JSON-RPC id is a string or a number (`id: string|number`). -/
inductive RpcId : Type where
  | str (s : String) : RpcId
  | num (n : Int) : RpcId
deriving DecidableEq, Repr

/-- The `error` member of an incoming response (`{code, message}`). -/
structure RpcError : Type where
  code : Int
  message : String
deriving DecidableEq, Repr

/-- A decoded incoming message as the engine sees it: each JSON-RPC envelope
field is `none` when absent (`'id' in message` is `id.isSome`, etc.). -/
structure RpcMessage : Type where
  jsonrpc : Option String := none
  id : Option RpcId := none
  method : Option String := none
  params : Option Json := none
  result : Option Json := none
  error : Option RpcError := none

/-- A message the engine hands to `transport.send`: either
`_sendResponse(id, result)` which sends `{jsonrpc:"2.0", id, result}`, or
`_sendError(id, code, message, data)` which sends
`{jsonrpc:"2.0", id, error:{code, message, data}}`.  The `id` of an error
response is optional because `_onMessage` passes `message.id` through even when
the field is absent (`undefined`), in which case `JSON.stringify` drops it. -/
inductive Sent : Type where
  | response (id : RpcId) (result : Json) : Sent
  | errorResponse (id : Option RpcId) (code : Int) (message : String) : Sent

/-- The id carried by an outgoing message. -/
def Sent.idOf : Sent → Option RpcId
  | .response i _ => some i
  | .errorResponse i _ _ => i

/-- Outcome of running a registered handler: normal return value, or a raised
error carrying its `message` text (`""` models a falsy / absent message). -/
inductive HandlerOutcome : Type where
  | ok (result : Json) : HandlerOutcome
  | raise (message : String) : HandlerOutcome

/-- A request handler (`requestHandlers` entry): receives the params object and
returns a result or raises. -/
def Handler : Type := Json → HandlerOutcome

/-- The handler registry `this.requestHandlers` as a lookup function
(`requestHandlers.get(method)`); `none` means no handler registered. -/
def Registry : Type := String → Option Handler

/-- `const JSONRPC_VERSION = '2.0'`. -/
def JSONRPC_VERSION : String := "2.0"

/-- `const LATEST_PROTOCOL_VERSION = '2024-11-05'`. -/
def LATEST_PROTOCOL_VERSION : String := "2024-11-05"

/-- `const SUPPORTED_PROTOCOL_VERSIONS = [LATEST_PROTOCOL_VERSION, '2024-10-07']`. -/
def SUPPORTED_PROTOCOL_VERSIONS : List String := [LATEST_PROTOCOL_VERSION, "2024-10-07"]

/-- `_handleRequest(request)`: looks up the method; no handler → error
-32601 naming the method; otherwise runs the handler on `params || {}` and
sends the result, catching a raised error as a -32603 error response whose
message is `error.message || 'Internal error'`. -/
def handleRequest (reg : Registry) (id : RpcId) (method : String)
    (params : Option Json) : Sent :=
  match reg method with
  | none => .errorResponse (some id) (-32601) ("Method not found: " ++ method)
  | some h =>
    match h (params.getD (Json.obj [])) with
    | .ok r => .response id r
    | .raise msg =>
      .errorResponse (some id) (-32603) (if msg = "" then "Internal error" else msg)

/-- `_onMessage(message)`: the replies the engine sends for one decoded
message.  Mirrors the source's branch order: the `jsonrpc` check first (note:
`_sendError(message.id, …)` is called whether or not an `id` is present), then
request / notification / response / invalid classification by field presence.
Notifications and responses send nothing (`_handleNotification` only logs;
`_handleResponse` resolves the correlator, modelled separately below). -/
def onMessage (reg : Registry) (m : RpcMessage) : List Sent :=
  if m.jsonrpc ≠ some JSONRPC_VERSION then
    [.errorResponse m.id (-32600) "Invalid Request: Not a valid JSON-RPC 2.0 message"]
  else
    match m.id, m.method with
    | some i, some meth => [handleRequest reg i meth m.params]
    | none, some _ => []
    | some i, none =>
      if m.result.isSome || m.error.isSome then []
      else [.errorResponse (some i) (-32600) "Invalid Request"]
    | none, none => []

/-- A well-formed incoming request `{jsonrpc:"2.0", id, method, params?}`. -/
def mkRequest (id : RpcId) (method : String) (params : Option Json) : RpcMessage :=
  { jsonrpc := some JSONRPC_VERSION, id := some id, method := some method,
    params := params }

/-- Version negotiation in `_handleInitialize`:
`SUPPORTED_PROTOCOL_VERSIONS.includes(requestedVersion) ? requestedVersion :
LATEST_PROTOCOL_VERSION`.  `includes` compares with `===`, so only a string
member of the list is accepted; an absent or non-string `protocolVersion`
falls back to the latest version. -/
def negotiate (requested : Option Json) : String :=
  match requested with
  | some (.str v) => if v ∈ SUPPORTED_PROTOCOL_VERSIONS then v else LATEST_PROTOCOL_VERSION
  | _ => LATEST_PROTOCOL_VERSION

/-- The object literal returned by `_handleInitialize`:
`{protocolVersion, capabilities, serverInfo, ...(instructions && {instructions})}`
(the spread adds the field only when `options.instructions` is truthy). -/
def initResult (pv : String) (caps serverInfo : Json) (instructions : Option String) : Json :=
  Json.obj ([("protocolVersion", Json.str pv), ("capabilities", caps),
    ("serverInfo", serverInfo)] ++
    (match instructions with
     | some s => if s = "" then [] else [("instructions", Json.str s)]
     | none => []))

/-- `_handleInitialize(params)`: negotiates the version from
`params.protocolVersion` and returns the server's capabilities and info.  It
never raises (the client-info stores are plain assignments). -/
def handleInitialize (caps serverInfo : Json) (instructions : Option String) : Handler :=
  fun params =>
    .ok (initResult (negotiate (params.getField "protocolVersion")) caps serverInfo instructions)

/-- The handlers registered by the `McpServer` constructor:
`initialize` and `ping` (`() => ({})`). -/
def coreRegistry (caps serverInfo : Json) (instructions : Option String) : Registry :=
  fun meth =>
    if meth = "initialize" then some (handleInitialize caps serverInfo instructions)
    else if meth = "ping" then some (fun _ => .ok (Json.obj []))
    else none

/-! ## Request correlator

`request()` / `_handleResponse()` and the timeout set in `request()`.  The
observable state is `this.requestId` and the key set of
`this._responseHandlers`; an id is in `pending` exactly while its response
handler is registered, which coincides with its timeout timer being armed
(both paths — response arrival and timer expiry — delete the entry and
disarm the timer together). -/

/-- Correlator state: `this.requestId` counter and the ids with a pending
response handler in `this._responseHandlers`. -/
structure Correlator : Type where
  requestId : Nat := 0
  pending : List Nat := []
deriving DecidableEq, Repr

/-- What a waiting caller of `request()` observes. -/
inductive CallerEvent : Type where
  | timedOut (id : Nat) : CallerEvent
  | fulfilled (id : Nat) (result : Option Json) : CallerEvent
  | failed (id : Nat) (code : Int) (message : String) : CallerEvent

/-- `request(method, params)` up to the point the promise is pending:
`const id = this.requestId++`, a timeout is armed, and a response handler is
stored under `id`. -/
def Correlator.issue (c : Correlator) : Correlator × Nat :=
  ({ requestId := c.requestId + 1, pending := c.pending ++ [c.requestId] }, c.requestId)

/-- The timeout callback for `id` firing: it runs only while the timer is
armed, i.e. while `id` is pending (a resolved entry's `clearTimeout` disarms
it); it deletes the handler and rejects with `Error('Request timed out')`. -/
def Correlator.expire (c : Correlator) (id : Nat) : Correlator × List CallerEvent :=
  if id ∈ c.pending then
    ({ c with pending := c.pending.erase id }, [.timedOut id])
  else (c, [])

/-- `_handleResponse(response)`: look up the handler by `response.id`; if
present, delete it and run it (`clearTimeout`, then reject on `'error' in
response` with ``Error(`Error ${code}: ${message}`)``, else resolve with
`response.result`); if absent, do nothing. -/
def Correlator.handleResponse (c : Correlator) (respId : Nat)
    (respError : Option RpcError) (respResult : Option Json) :
    Correlator × List CallerEvent :=
  if respId ∈ c.pending then
    ({ c with pending := c.pending.erase respId },
     [match respError with
      | some e => .failed respId e.code ("Error " ++ toString e.code ++ ": " ++ e.message)
      | none => .fulfilled respId respResult])
  else (c, [])

/-! ## Byte-stream (stdio) transport

`stdio-transport.js`.  Incoming bytes are JavaScript strings, modelled as
`List Char`; `JSON.parse` is a host primitive and appears as a
`parse : List Char → Option Json` parameter (`none` = the parse threw). -/

/-- JavaScript's notion of a whitespace character, restricted to the ASCII
characters `trim` strips that can appear in this code path. -/
def isJsWhitespace (c : Char) : Bool :=
  c = ' ' ∨ c = '\t' ∨ c = '\n' ∨ c = '\r' ∨ c = '\x0b' ∨ c = '\x0c'

/-- `!line.trim()`: the line trims to the empty string, i.e. every character
is whitespace. -/
def isBlank (line : List Char) : Bool :=
  line.all isJsWhitespace

/-- Transport events observable from `_onData`: `this.onmessage?.(message)`
or `this.onerror?.(parseError)` for one line. -/
inductive TransportEvent : Type where
  | dispatched (msg : Json) : TransportEvent
  | parseError (line : List Char) : TransportEvent

/-- The body of the `for (const line of lines)` loop for one complete line:
skip blank lines, parse, dispatch or report the parse failure. -/
def processLine (parse : List Char → Option Json) (line : List Char) :
    Option TransportEvent :=
  if isBlank line then none
  else
    match parse line with
    | some m => some (.dispatched m)
    | none => some (.parseError line)

/-- `s.split('\n')` presented as the first segment plus the segments opened
by each line-break; `splitSegs` below reassembles the full list. -/
def splitNl1 : List Char → List Char × List (List Char)
  | [] => ([], [])
  | c :: cs =>
    let r := splitNl1 cs
    if c = '\n' then ([], r.1 :: r.2) else (c :: r.1, r.2)

/-- `this._buffer.split('\n')`: always a non-empty list of segments none of
which contains a line-break. -/
def splitSegs (s : List Char) : List (List Char) :=
  (splitNl1 s).1 :: (splitNl1 s).2

/-- `_onData(chunk)`: append the chunk to the buffer, split on line-breaks,
keep the final (possibly-incomplete) segment as the new buffer
(`this._buffer = lines.pop() || ''`), and run the loop body on every
complete line.  Returns the new buffer and the events fired, in order. -/
def onData (parse : List Char → Option Json) (buffer chunk : List Char) :
    List Char × List TransportEvent :=
  (((splitSegs (buffer ++ chunk)).getLast?).getD [],
   (splitSegs (buffer ++ chunk)).dropLast.filterMap (processLine parse))

/-- `send(message)` of the stdio transport, with `JSON.stringify` as the
`stringify` parameter.  Returns the outcome and the list of writes made to
the output sink: the newline check happens after serialization and before
any write, so a rejected send writes nothing; an accepted send writes the
serialized form plus the single `'\n'` delimiter. -/
def stdioSend (stringify : Json → List Char) (started : Bool) (m : Json) :
    Except String Unit × List (List Char) :=
  if started = false then (.error "Cannot send message: transport not started", [])
  else
    let messageStr := stringify m
    if '\n' ∈ messageStr then
      (.error "Invalid message: MCP messages must not contain newlines", [])
    else (.ok (), [messageStr ++ ['\n']])

/-! ## Session-multiplexed push transport

`http-sse-transport.js`.  `this._sessions` is modelled as an association
list from session id to its channel; for `send` the only aspect of the
channel that matters is how `res.write` behaves at this instant. -/

/-- Behaviour of `session.res.write(...)` for one call: succeeds, or throws
an error whose `code` property is the given string. -/
inductive WriteOutcome : Type where
  | ok : WriteOutcome
  | fail (code : String) : WriteOutcome
deriving DecidableEq, Repr

/-- The failures `send(message, sessionId)` can throw. -/
inductive SseSendError : Type where
  | notStarted : SseSendError
  | noSessionId : SseSendError
  | sessionNotFound (sid : String) : SseSendError
  | writeFailed (code : String) : SseSendError
deriving DecidableEq, Repr

/-- JavaScript truthiness on an optional string: `undefined` and `''` are
falsy. -/
def truthy (o : Option String) : Option String :=
  o.bind fun s => if s = "" then none else some s

/-- `send(message, sessionId)` of the push transport: started check, falsy
session-id check, registry lookup (`this._sessions[sessionId]`), then the
`try`/`catch` around `res.write`: the session is deleted from the registry
only when the thrown error's code is `'ERR_STREAM_WRITE_AFTER_END'`, and the
error is rethrown either way.  Returns the registry after the call and the
outcome. -/
def sseSend (started : Bool) (sessions : List (String × WriteOutcome))
    (sessionId : Option String) :
    List (String × WriteOutcome) × Except SseSendError Bool :=
  if started = false then (sessions, .error .notStarted)
  else
    match truthy sessionId with
    | none => (sessions, .error .noSessionId)
    | some sid =>
      match sessions.lookup sid with
      | none => (sessions, .error (.sessionNotFound sid))
      | some .ok => (sessions, .ok true)
      | some (.fail code) =>
        ((if code = "ERR_STREAM_WRITE_AFTER_END" then
            sessions.filter (fun p => p.1 ≠ sid)
          else sessions),
         .error (.writeFailed code))

/-- Outcome of `_handleJsonRpcRequest(req, res)` for one submission. -/
inductive SubmitResult : Type where
  | invalidRequest : SubmitResult
  | missingSession : SubmitResult
  | accepted (sessionId : String) : SubmitResult

/-- The session-id resolution step of `_handleJsonRpcRequest`:
`req.query.sessionId || req.headers['x-session-id']` under JavaScript
truthiness. -/
def resolveToken (queryToken headerToken : Option String) : Option String :=
  (truthy queryToken).orElse (fun _ => truthy headerToken)

/-- `_handleJsonRpcRequest`: validate `jsonrpc === '2.0'` (400 / -32600
otherwise), resolve the session id as
`req.query.sessionId || req.headers['x-session-id']`; if falsy, fall back to
the single registered session when exactly one exists, else 400 / -32600
`'No session ID provided'`.  An accepted submission dispatches the message
to `onmessage` with the resolved session id and immediately answers
`202 {status:'accepted'}`. -/
def handleJsonRpcRequest (sessions : List String)
    (queryToken headerToken : Option String) (m : RpcMessage) : SubmitResult :=
  if m.jsonrpc ≠ some JSONRPC_VERSION then .invalidRequest
  else
    match resolveToken queryToken headerToken with
    | some sid => .accepted sid
    | none =>
      match sessions with
      | [s] => .accepted s
      | _ => .missingSession

/-! ## Specification devices

Pure helpers used only to state theorems: a canonical way to build an input
stream out of complete lines, and its inverse pairing with `splitSegs`. -/

/-- A stream consisting of the given complete lines, each terminated by the
`'\n'` delimiter. -/
def joinLines (ls : List (List Char)) : List Char :=
  ls.foldr (fun l acc => l ++ '\n' :: acc) []

/-- Interleave `'\n'` between the segments produced by `splitNl1`;
the inverse of splitting. -/
def unsplit : List Char → List (List Char) → List Char
  | a, [] => a
  | a, b :: bs => a ++ '\n' :: unsplit b bs

/-! ## Concrete instances for witnesses -/

/-- A registry with no handlers. -/
def noHandlers : Registry := fun _ => none

/-- A registry with a single `echo` method returning its params. -/
def echoReg : Registry :=
  fun meth => if meth = "echo" then some (fun p => .ok p) else none

/-- A handler that raises an error whose `message` is empty (falsy). -/
def emptyRaiser : Handler := fun _ => .raise ""

/-- A registry whose `boom` handler raises with an empty message. -/
def raiseEmptyReg : Registry :=
  fun meth => if meth = "boom" then some emptyRaiser else none

/-- A handler that raises an error with a non-empty message. -/
def msgRaiser : Handler := fun _ => .raise "disk on fire"

/-- A registry whose `kaboom` handler raises with a non-empty message. -/
def raiseMsgReg : Registry :=
  fun meth => if meth = "kaboom" then some msgRaiser else none

/-- A tiny concrete stand-in for `JSON.parse`: parses the one-character
documents `7` and `8`, fails on everything else. -/
def parseDigit : List Char → Option Json :=
  fun l => if l = ['7'] then some (.num 7) else if l = ['8'] then some (.num 8) else none

/-- A stand-in for `JSON.stringify` whose output contains a line-break. -/
def stringifyWithNl : Json → List Char := fun _ => ['a', '\n', 'b']

/-- A stand-in for `JSON.stringify` whose output is a single clean line. -/
def stringifyFlat : Json → List Char := fun _ => ['o', 'k']

/-! ## Framing lemmas: `splitNl1` / `splitSegs` -/

theorem splitNl1_cons_nl (b : List Char) :
    splitNl1 ('\n' :: b) = ([], (splitNl1 b).1 :: (splitNl1 b).2) := by
  simp [splitNl1]

theorem splitNl1_cons (c : Char) (b : List Char) (h : c ≠ '\n') :
    splitNl1 (c :: b) = (c :: (splitNl1 b).1, (splitNl1 b).2) := by
  simp [splitNl1, h]

theorem splitNl1_no_nl : ∀ (a : List Char), '\n' ∉ a → splitNl1 a = (a, []) := by
  intro a
  induction a with
  | nil => intro _; rfl
  | cons c cs ih =>
    intro h
    have hc : c ≠ '\n' := fun e => h (by simp [e])
    have hcs : '\n' ∉ cs := fun m => h (List.mem_cons_of_mem _ m)
    simp [splitNl1_cons _ _ hc, ih hcs]

theorem splitNl1_append (b : List Char) : ∀ (a : List Char), '\n' ∉ a →
    splitNl1 (a ++ b) = (a ++ (splitNl1 b).1, (splitNl1 b).2) := by
  intro a
  induction a with
  | nil => intro _; simp
  | cons c cs ih =>
    intro h
    have hc : c ≠ '\n' := fun e => h (by simp [e])
    have hcs : '\n' ∉ cs := fun m => h (List.mem_cons_of_mem _ m)
    simp [List.cons_append, splitNl1_cons _ _ hc, ih hcs]

theorem splitSegs_no_nl {a : List Char} (h : '\n' ∉ a) : splitSegs a = [a] := by
  simp [splitSegs, splitNl1_no_nl a h]

theorem splitSegs_line_append {l : List Char} (r : List Char) (h : '\n' ∉ l) :
    splitSegs (l ++ '\n' :: r) = l :: splitSegs r := by
  simp [splitSegs, splitNl1_append _ _ h, splitNl1_cons_nl]

theorem splitSegs_join (t : List Char) : ∀ (ls : List (List Char)),
    (∀ l ∈ ls, '\n' ∉ l) →
    splitSegs (joinLines ls ++ t) = ls ++ splitSegs t := by
  intro ls
  induction ls with
  | nil => intro _; simp [joinLines]
  | cons l ls ih =>
    intro h
    have hl : '\n' ∉ l := h l (List.mem_cons_self l ls)
    have h' : ∀ x ∈ ls, '\n' ∉ x := fun x hx => h x (List.mem_cons_of_mem _ hx)
    have hj : joinLines (l :: ls) ++ t = l ++ '\n' :: (joinLines ls ++ t) := by
      simp [joinLines]
    rw [hj, splitSegs_line_append _ hl, ih h']
    rfl

theorem splitSegs_no_nl_mem : ∀ (s : List Char), ∀ l ∈ splitSegs s, '\n' ∉ l := by
  intro s
  induction s with
  | nil =>
    intro l hl
    simp [splitSegs, splitNl1] at hl
    simp [hl]
  | cons c cs ih =>
    intro l hl
    by_cases hc : c = '\n'
    · subst hc
      simp only [splitSegs, splitNl1_cons_nl] at hl
      rcases List.mem_cons.mp hl with rfl | hl
      · simp
      · exact ih l (by simpa [splitSegs] using hl)
    · simp only [splitSegs, splitNl1_cons _ _ hc] at hl
      rcases List.mem_cons.mp hl with rfl | hl
      · intro hmem
        rcases List.mem_cons.mp hmem with h1 | h1
        · exact hc h1.symm
        · exact ih _ (by simp [splitSegs]) h1
      · exact ih l (by simp [splitSegs, hl])

theorem unsplit_cons (c : Char) (a : List Char) (as : List (List Char)) :
    unsplit (c :: a) as = c :: unsplit a as := by
  cases as <;> simp [unsplit]

theorem unsplit_splitNl1 : ∀ (s : List Char),
    unsplit (splitNl1 s).1 (splitNl1 s).2 = s := by
  intro s
  induction s with
  | nil => rfl
  | cons c cs ih =>
    by_cases hc : c = '\n'
    · subst hc
      rw [splitNl1_cons_nl]
      show unsplit [] ((splitNl1 cs).1 :: (splitNl1 cs).2) = '\n' :: cs
      simpa [unsplit] using ih
    · rw [splitNl1_cons _ _ hc, unsplit_cons, ih]

theorem unsplit_eq_joinLines : ∀ (as : List (List Char)) (a : List Char),
    unsplit a as = joinLines ((a :: as).dropLast) ++ ((a :: as).getLast?.getD []) := by
  intro as
  induction as with
  | nil => intro a; simp [unsplit, joinLines]
  | cons b bs ih =>
    intro a
    calc unsplit a (b :: bs)
        = a ++ '\n' :: unsplit b bs := rfl
      _ = a ++ '\n' :: (joinLines ((b :: bs).dropLast) ++ ((b :: bs).getLast?.getD [])) := by
            rw [ih b]
      _ = (a ++ '\n' :: joinLines ((b :: bs).dropLast)) ++ ((b :: bs).getLast?.getD []) := by
            simp
      _ = joinLines ((a :: b :: bs).dropLast) ++ ((a :: b :: bs).getLast?.getD []) := by
            simp [joinLines, List.getLast?_cons_cons]

theorem splitSegs_reconstruct (s : List Char) :
    joinLines ((splitSegs s).dropLast) ++ ((splitSegs s).getLast?.getD []) = s := by
  have h := unsplit_splitNl1 s
  rw [unsplit_eq_joinLines] at h
  exact h

theorem onData_eq_of_join (parse : List Char → Option Json) {ls : List (List Char)}
    {frag : List Char} (h : ∀ l ∈ ls, '\n' ∉ l) (hf : '\n' ∉ frag)
    {buffer chunk : List Char} (hbc : buffer ++ chunk = joinLines ls ++ frag) :
    onData parse buffer chunk = (frag, ls.filterMap (processLine parse)) := by
  unfold onData
  rw [hbc, splitSegs_join _ _ h, splitSegs_no_nl hf]
  simp

theorem onData_chunk_coherent (parse : List Char → Option Json)
    (buffer c1 c2 : List Char) :
    (onData parse buffer (c1 ++ c2)).1 = (onData parse (onData parse buffer c1).1 c2).1
    ∧ (onData parse buffer (c1 ++ c2)).2 =
        (onData parse buffer c1).2 ++ (onData parse (onData parse buffer c1).1 c2).2 := by
  have hrec := splitSegs_reconstruct (buffer ++ c1)
  have hmem := splitSegs_no_nl_mem (buffer ++ c1)
  have hAmem : ∀ l ∈ (splitSegs (buffer ++ c1)).dropLast, '\n' ∉ l :=
    fun l hl => hmem l ((List.dropLast_sublist _).subset hl)
  have key : buffer ++ (c1 ++ c2) =
      joinLines ((splitSegs (buffer ++ c1)).dropLast) ++
        (((splitSegs (buffer ++ c1)).getLast?.getD []) ++ c2) := by
    rw [← List.append_assoc, ← List.append_assoc, hrec]
  have hsplit : splitSegs (buffer ++ (c1 ++ c2)) =
      (splitSegs (buffer ++ c1)).dropLast ++
        splitSegs ((((splitSegs (buffer ++ c1)).getLast?.getD []) ++ c2)) := by
    rw [key, splitSegs_join _ _ hAmem]
  have hcons : splitSegs ((((splitSegs (buffer ++ c1)).getLast?.getD []) ++ c2)) =
      (splitNl1 ((((splitSegs (buffer ++ c1)).getLast?.getD []) ++ c2))).1 ::
        (splitNl1 ((((splitSegs (buffer ++ c1)).getLast?.getD []) ++ c2))).2 := rfl
  constructor
  · show ((splitSegs (buffer ++ (c1 ++ c2))).getLast?).getD [] = _
    rw [hsplit, hcons, List.getLast?_append_cons]
    rfl
  · show (splitSegs (buffer ++ (c1 ++ c2))).dropLast.filterMap (processLine parse) = _
    rw [hsplit, hcons, List.dropLast_append_cons, List.filterMap_append]
    rfl

/-- Helper: an element is gone from a duplicate-free list after erasing it. -/
theorem nat_not_mem_erase_self : ∀ {l : List Nat}, l.Nodup → ∀ (a : Nat),
    a ∉ l.erase a := by
  intro l
  induction l with
  | nil => intro _ a; simp
  | cons b t ih =>
    intro h a
    rw [List.erase_cons]
    by_cases hb : b = a
    · subst hb
      simp only [beq_self_eq_true, if_true]
      exact (List.nodup_cons.mp h).1
    · have : (b == a) = false := by simp [hb]
      rw [this]
      simp only [Bool.false_eq_true, if_false]
      intro hmem
      rcases List.mem_cons.mp hmem with h1 | h1
      · exact hb h1.symm
      · exact ih (List.nodup_cons.mp h).2 a h1

/-! ## Claim theorems -/

/-- C1 (counterexample): the claim says a message with `jsonrpc != "2.0"` and
no `id` yields no reply at all, but `_onMessage` calls
`_sendError(message.id, -32600, …)` unconditionally, so the engine does send
one error response (whose serialized form simply lacks an `id` field). -/
theorem c1_counterexample :
    onMessage noHandlers { jsonrpc := some "1.0", method := some "foo" } =
      [.errorResponse none (-32600) "Invalid Request: Not a valid JSON-RPC 2.0 message"]
    ∧ onMessage noHandlers { jsonrpc := some "1.0", method := some "foo" } ≠ [] := by
  have h : onMessage noHandlers { jsonrpc := some "1.0", method := some "foo" } =
      [.errorResponse none (-32600) "Invalid Request: Not a valid JSON-RPC 2.0 message"] := rfl
  exact ⟨h, by rw [h]; simp⟩

/-- C1 (amended): for every decoded message whose `jsonrpc` field is not
`"2.0"`, the engine sends exactly one error response with code -32600 carrying
the message's `id` when present and no id otherwise — in particular a message
without an `id` still gets exactly one such reply. -/
theorem c1_amended (reg : Registry) (m : RpcMessage)
    (h : m.jsonrpc ≠ some JSONRPC_VERSION) :
    onMessage reg m =
      [.errorResponse m.id (-32600) "Invalid Request: Not a valid JSON-RPC 2.0 message"] := by
  simp [onMessage, h]

/-- C1 (witness): a concrete run of the amended theorem on a message with an
id and a bad version. -/
theorem c1_witness :
    (some "1.0" ≠ some JSONRPC_VERSION)
    ∧ onMessage noHandlers
        { jsonrpc := some "1.0", id := some (.num 4), method := some "ping" } =
        [.errorResponse (some (.num 4)) (-32600)
          "Invalid Request: Not a valid JSON-RPC 2.0 message"] :=
  ⟨by decide,
   c1_amended noHandlers
     { jsonrpc := some "1.0", id := some (.num 4), method := some "ping" } (by decide)⟩

/-- C2: every request whose method is registered gets exactly one response
carrying the identical id; every request whose method is unregistered gets
exactly one -32601 error response whose message names the method. -/
theorem c2_request_dispatch (reg : Registry) (id : RpcId) (method : String)
    (params : Option Json) :
    ((reg method).isSome →
      (onMessage reg (mkRequest id method params)).map Sent.idOf = [some id])
    ∧ (reg method = none →
      onMessage reg (mkRequest id method params) =
        [.errorResponse (some id) (-32601) ("Method not found: " ++ method)]) := by
  constructor
  · intro h
    cases hreg : reg method with
    | none => rw [hreg] at h; simp at h
    | some f =>
      cases hf : f (params.getD (Json.obj [])) with
      | ok r => simp [onMessage, mkRequest, handleRequest, hreg, hf, Sent.idOf]
      | raise msg => simp [onMessage, mkRequest, handleRequest, hreg, hf, Sent.idOf]
  · intro h
    simp [onMessage, mkRequest, handleRequest, h]

/-- C2 (witness): concrete dispatches against a one-method registry. -/
theorem c2_witness :
    ((echoReg "echo").isSome
      ∧ (onMessage echoReg (mkRequest (.num 1) "echo" none)).map Sent.idOf =
          [some (.num 1)])
    ∧ (echoReg "nope" = none
      ∧ onMessage echoReg (mkRequest (.num 1) "nope" none) =
          [.errorResponse (some (.num 1)) (-32601) ("Method not found: " ++ "nope")]) :=
  ⟨⟨rfl, (c2_request_dispatch echoReg (.num 1) "echo" none).1 rfl⟩,
   ⟨rfl, (c2_request_dispatch echoReg (.num 1) "nope" none).2 rfl⟩⟩

/-- C4: the stdio transport's send serializes first, rejects before any write
when the serialized form contains a line-break, and otherwise performs exactly
one write consisting of the serialized form followed by exactly one trailing
line-break. -/
theorem c4_send_framing (stringify : Json → List Char) (m : Json) :
    ('\n' ∈ stringify m →
      stdioSend stringify true m =
        (.error "Invalid message: MCP messages must not contain newlines", []))
    ∧ ('\n' ∉ stringify m →
        stdioSend stringify true m = (.ok (), [stringify m ++ ['\n']])
        ∧ (stringify m ++ ['\n']).count '\n' = 1) := by
  constructor
  · intro h
    simp [stdioSend, h]
  · intro h
    refine ⟨by simp [stdioSend, h], ?_⟩
    rw [List.count_append, List.count_eq_zero.mpr h]
    simp

/-- C4 (witness): one rejected and one accepted send under two concrete
serializations. -/
theorem c4_witness :
    ('\n' ∈ stringifyWithNl Json.null)
    ∧ stdioSend stringifyWithNl true Json.null =
        (.error "Invalid message: MCP messages must not contain newlines", [])
    ∧ ('\n' ∉ stringifyFlat Json.null)
    ∧ (stdioSend stringifyFlat true Json.null =
        (.ok (), [stringifyFlat Json.null ++ ['\n']])
      ∧ (stringifyFlat Json.null ++ ['\n']).count '\n' = 1) :=
  ⟨by decide,
   (c4_send_framing stringifyWithNl Json.null).1 (by decide),
   by decide,
   (c4_send_framing stringifyFlat Json.null).2 (by decide)⟩

/-- C5: initialize echoes a supported requested protocol version verbatim and
substitutes the latest supported version ("2024-11-05") otherwise; in both
cases it returns a success result carrying the negotiated version, the local
capabilities, and the local serverInfo, and the engine's dispatch of an
initialize request produces exactly that success response. -/
theorem c5_initialize_negotiation (caps serverInfo : Json) (instr : Option String)
    (params : Json) (v : String) (id : RpcId) :
    (params.getField "protocolVersion" = some (.str v) →
      v ∈ SUPPORTED_PROTOCOL_VERSIONS →
      handleInitialize caps serverInfo instr params =
        .ok (initResult v caps serverInfo instr))
    ∧ (params.getField "protocolVersion" = some (.str v) →
      v ∉ SUPPORTED_PROTOCOL_VERSIONS →
      handleInitialize caps serverInfo instr params =
        .ok (initResult LATEST_PROTOCOL_VERSION caps serverInfo instr))
    ∧ handleInitialize caps serverInfo instr params =
        .ok (initResult (negotiate (params.getField "protocolVersion"))
          caps serverInfo instr)
    ∧ (initResult (negotiate (params.getField "protocolVersion"))
        caps serverInfo instr).getField "protocolVersion" =
        some (.str (negotiate (params.getField "protocolVersion")))
    ∧ (initResult (negotiate (params.getField "protocolVersion"))
        caps serverInfo instr).getField "capabilities" = some caps
    ∧ (initResult (negotiate (params.getField "protocolVersion"))
        caps serverInfo instr).getField "serverInfo" = some serverInfo
    ∧ onMessage (coreRegistry caps serverInfo instr)
        (mkRequest id "initialize" (some params)) =
        [.response id (initResult (negotiate (params.getField "protocolVersion"))
          caps serverInfo instr)] := by
  refine ⟨?_, ?_, rfl, ?_, ?_, ?_, ?_⟩
  · intro h hs
    simp [handleInitialize, negotiate, h, hs]
  · intro h hs
    simp [handleInitialize, negotiate, h, hs]
  · simp [initResult, Json.getField, List.lookup]
  · simp [initResult, Json.getField, List.lookup]
  · simp [initResult, Json.getField, List.lookup]
  · simp [onMessage, mkRequest, handleRequest, coreRegistry, handleInitialize]

/-- C5 (witness): one supported (non-latest) version echoed verbatim, one
unsupported version downgraded to the latest. -/
theorem c5_witness :
    handleInitialize (Json.obj []) (Json.obj []) none
        (Json.obj [("protocolVersion", Json.str "2024-10-07")]) =
      .ok (initResult "2024-10-07" (Json.obj []) (Json.obj []) none)
    ∧ handleInitialize (Json.obj []) (Json.obj []) none
        (Json.obj [("protocolVersion", Json.str "1999-01-01")]) =
      .ok (initResult LATEST_PROTOCOL_VERSION (Json.obj []) (Json.obj []) none) :=
  ⟨(c5_initialize_negotiation (Json.obj []) (Json.obj []) none
      (Json.obj [("protocolVersion", Json.str "2024-10-07")]) "2024-10-07"
      (.num 0)).1 rfl (by decide),
   (c5_initialize_negotiation (Json.obj []) (Json.obj []) none
      (Json.obj [("protocolVersion", Json.str "1999-01-01")]) "1999-01-01"
      (.num 0)).2.1 rfl (by decide)⟩

/-- C6 (counterexample): the claim says a -32603 response's message is always
the raised failure's message text, but `error.message || 'Internal error'`
substitutes `'Internal error'` when the raised message is empty (falsy): a
handler raising with message `""` yields a response whose message is
`"Internal error"`, not `""`. -/
theorem c6_counterexample :
    emptyRaiser (Json.obj []) = .raise ""
    ∧ onMessage raiseEmptyReg (mkRequest (.num 1) "boom" none) =
        [.errorResponse (some (.num 1)) (-32603) "Internal error"]
    ∧ ("Internal error" : String) ≠ "" :=
  ⟨rfl, rfl, by decide⟩

/-- C6 (amended): for every request whose registered handler raises, dispatch
sends exactly one -32603 error response whose message is the raised failure's
message text when that text is non-empty, and `"Internal error"` otherwise;
the failure is caught, so it never escapes the dispatcher. -/
theorem c6_amended (reg : Registry) (f : Handler) (id : RpcId) (method : String)
    (params : Option Json) (msg : String)
    (hreg : reg method = some f)
    (hraise : f (params.getD (Json.obj [])) = .raise msg) :
    onMessage reg (mkRequest id method params) =
      [.errorResponse (some id) (-32603)
        (if msg = "" then "Internal error" else msg)] := by
  simp [onMessage, mkRequest, handleRequest, hreg, hraise]

/-- C6 (witness): a handler raising a non-empty message has it passed
through. -/
theorem c6_witness :
    raiseMsgReg "kaboom" = some msgRaiser
    ∧ msgRaiser ((none : Option Json).getD (Json.obj [])) = .raise "disk on fire"
    ∧ onMessage raiseMsgReg (mkRequest (.num 2) "kaboom" none) =
        [.errorResponse (some (.num 2)) (-32603)
          (if "disk on fire" = "" then "Internal error" else "disk on fire")] :=
  ⟨rfl, rfl,
   c6_amended raiseMsgReg msgRaiser (.num 2) "kaboom" none "disk on fire" rfl rfl⟩

/-- C7: a pending entry whose deadline fires is removed and its caller is
failed with the timeout rejection; a response whose id matches no pending
entry changes nothing and produces no caller event — in particular a response
arriving for an id after its deadline fired has no effect. -/
theorem c7_correlator (c : Correlator) (id : Nat) (hnd : c.pending.Nodup)
    (hid : id ∈ c.pending) (e : Option RpcError) (r : Option Json)
    (c' : Correlator) (rid : Nat) (e' : Option RpcError) (r' : Option Json)
    (hrid : rid ∉ c'.pending) :
    Correlator.expire c id =
      ({ c with pending := c.pending.erase id }, [.timedOut id])
    ∧ id ∉ (Correlator.expire c id).1.pending
    ∧ Correlator.handleResponse c' rid e' r' = (c', [])
    ∧ Correlator.handleResponse (Correlator.expire c id).1 id e r =
        ((Correlator.expire c id).1, []) := by
  have h1 : Correlator.expire c id =
      ({ c with pending := c.pending.erase id }, [.timedOut id]) := by
    simp [Correlator.expire, hid]
  have h2 : id ∉ (Correlator.expire c id).1.pending := by
    rw [h1]
    exact nat_not_mem_erase_self hnd id
  refine ⟨h1, h2, ?_, ?_⟩
  · simp [Correlator.handleResponse, hrid]
  · simp [Correlator.handleResponse, h2]

/-- C7 (witness): a correlator with one pending request whose deadline fires,
then a stray and a late response, both without effect. -/
theorem c7_witness :
    Correlator.expire ⟨1, [0]⟩ 0 =
      (⟨1, ([0] : List Nat).erase 0⟩, [.timedOut 0])
    ∧ (0 : Nat) ∉ (Correlator.expire ⟨1, [0]⟩ 0).1.pending
    ∧ Correlator.handleResponse ⟨1, []⟩ 5 none none = (⟨1, []⟩, [])
    ∧ Correlator.handleResponse (Correlator.expire ⟨1, [0]⟩ 0).1 0 none none =
        ((Correlator.expire ⟨1, [0]⟩ 0).1, []) :=
  c7_correlator ⟨1, [0]⟩ 0 (by decide) (by decide) none none ⟨1, []⟩ 5 none none
    (by decide)

/-- C8: a valid submission with a (truthy) query/header token is routed to
that session id and acknowledged; without a token it is routed to the sole
registered session when exactly one exists, and rejected for a missing
session id when zero or several sessions are registered. -/
theorem c8_submit_routing (sessions : List String) (q hdr : Option String)
    (m : RpcMessage) (sid s : String) (hv : m.jsonrpc = some JSONRPC_VERSION) :
    (resolveToken q hdr = some sid →
      handleJsonRpcRequest sessions q hdr m = .accepted sid)
    ∧ (resolveToken q hdr = none → sessions = [s] →
      handleJsonRpcRequest sessions q hdr m = .accepted s)
    ∧ (resolveToken q hdr = none → sessions.length ≠ 1 →
      handleJsonRpcRequest sessions q hdr m = .missingSession) := by
  refine ⟨?_, ?_, ?_⟩
  · intro ht
    simp [handleJsonRpcRequest, hv, ht]
  · intro ht hs
    simp [handleJsonRpcRequest, hv, ht, hs]
  · intro ht hs
    cases sessions with
    | nil => simp [handleJsonRpcRequest, hv, ht]
    | cons a tl =>
      cases tl with
      | nil => exact absurd rfl hs
      | cons b tl2 => simp [handleJsonRpcRequest, hv, ht]

/-- C8 (witness): token routing, single-session fallback, and the two
rejection shapes. -/
theorem c8_witness :
    handleJsonRpcRequest ["s1"] (some "tok") none { jsonrpc := some "2.0" } =
      .accepted "tok"
    ∧ handleJsonRpcRequest ["s1"] none none { jsonrpc := some "2.0" } =
        .accepted "s1"
    ∧ handleJsonRpcRequest [] none none { jsonrpc := some "2.0" } =
        .missingSession
    ∧ handleJsonRpcRequest ["s1", "s2"] none none { jsonrpc := some "2.0" } =
        .missingSession :=
  ⟨(c8_submit_routing ["s1"] (some "tok") none { jsonrpc := some "2.0" }
      "tok" "s1" rfl).1 rfl,
   (c8_submit_routing ["s1"] none none { jsonrpc := some "2.0" }
      "x" "s1" rfl).2.1 rfl rfl,
   (c8_submit_routing [] none none { jsonrpc := some "2.0" }
      "x" "y" rfl).2.2 rfl (by decide),
   (c8_submit_routing ["s1", "s2"] none none { jsonrpc := some "2.0" }
      "x" "y" rfl).2.2 rfl (by decide)⟩

/-- C9 (counterexample): the claim says every write failure evicts the
session, but the catch block only deletes the session when the thrown error's
code is `ERR_STREAM_WRITE_AFTER_END`: after a write failing with code
`EPIPE` the session is still in the registry. -/
theorem c9_counterexample :
    sseSend true [("s1", WriteOutcome.fail "EPIPE")] (some "s1") =
      ([("s1", WriteOutcome.fail "EPIPE")], .error (.writeFailed "EPIPE"))
    ∧ ("s1", WriteOutcome.fail "EPIPE") ∈
        (sseSend true [("s1", WriteOutcome.fail "EPIPE")] (some "s1")).1 :=
  ⟨rfl, by decide⟩

/-- C9 (amended): send raises when the session id is absent from the
registry; a write failure evicts the session only when the error code is
`ERR_STREAM_WRITE_AFTER_END`, and is re-raised without eviction for any other
code. -/
theorem c9_amended (sessions : List (String × WriteOutcome)) (sid code : String)
    (hsid : sid ≠ "") :
    (sessions.lookup sid = none →
      sseSend true sessions (some sid) =
        (sessions, .error (.sessionNotFound sid)))
    ∧ (sessions.lookup sid = some (.fail code) →
        code = "ERR_STREAM_WRITE_AFTER_END" →
        sseSend true sessions (some sid) =
          (sessions.filter (fun p => p.1 ≠ sid), .error (.writeFailed code)))
    ∧ (sessions.lookup sid = some (.fail code) →
        code ≠ "ERR_STREAM_WRITE_AFTER_END" →
        sseSend true sessions (some sid) =
          (sessions, .error (.writeFailed code))) := by
  have htr : truthy (some sid) = some sid := by simp [truthy, hsid]
  refine ⟨?_, ?_, ?_⟩
  · intro hlk
    simp [sseSend, htr, hlk]
  · intro hlk hc
    simp [sseSend, htr, hlk, hc]
  · intro hlk hc
    simp [sseSend, htr, hlk, hc]

/-- C9 (witness): a send to an unknown session raises; a write failure with
the stream-ended code evicts; a write failure with another code leaves the
registry intact. -/
theorem c9_witness :
    sseSend true [("a", WriteOutcome.ok)] (some "zz") =
      ([("a", WriteOutcome.ok)], .error (.sessionNotFound "zz"))
    ∧ sseSend true
        [("a", WriteOutcome.ok), ("dead", WriteOutcome.fail "ERR_STREAM_WRITE_AFTER_END")]
        (some "dead") =
        ([("a", WriteOutcome.ok),
          ("dead", WriteOutcome.fail "ERR_STREAM_WRITE_AFTER_END")].filter
            (fun p => p.1 ≠ "dead"),
         .error (.writeFailed "ERR_STREAM_WRITE_AFTER_END"))
    ∧ sseSend true [("b", WriteOutcome.fail "EPIPE")] (some "b") =
        ([("b", WriteOutcome.fail "EPIPE")], .error (.writeFailed "EPIPE")) :=
  ⟨(c9_amended [("a", WriteOutcome.ok)] "zz" "x" (by decide)).1 rfl,
   (c9_amended
      [("a", WriteOutcome.ok), ("dead", WriteOutcome.fail "ERR_STREAM_WRITE_AFTER_END")]
      "dead" "ERR_STREAM_WRITE_AFTER_END" (by decide)).2.1 rfl rfl,
   (c9_amended [("b", WriteOutcome.fail "EPIPE")] "b" "EPIPE" (by decide)).2.2
      rfl (by decide)⟩

/-- C3: complete newline-delimited lines are parsed and dispatched in arrival
order with the final incomplete fragment retained in the buffer; processing
is invariant under re-chunking (so a message split across two chunks, the
second completing it with the line-break, is dispatched exactly once); and a
line that fails to parse fires the error callback for that line only while
the following line in the same chunk is still dispatched. -/
theorem c3_stream_framing (parse : List Char → Option Json)
    (buffer c1 c2 : List Char) (ls : List (List Char)) (frag : List Char)
    (hls : ∀ l ∈ ls, '\n' ∉ l) (hfrag : '\n' ∉ frag) (m : Json)
    (hc1 : '\n' ∉ c1) (hc2 : '\n' ∉ c2)
    (hparse : parse (c1 ++ c2) = some m) (hblank : isBlank (c1 ++ c2) = false)
    (bad good : List Char) (mg : Json)
    (hbadNl : '\n' ∉ bad) (hbadBlank : isBlank bad = false)
    (hbad : parse bad = none) (hgoodNl : '\n' ∉ good)
    (hgoodBlank : isBlank good = false) (hgood : parse good = some mg) :
    onData parse [] (joinLines ls ++ frag) =
      (frag, ls.filterMap (processLine parse))
    ∧ (onData parse buffer (c1 ++ c2)).1 =
        (onData parse (onData parse buffer c1).1 c2).1
    ∧ (onData parse buffer (c1 ++ c2)).2 =
        (onData parse buffer c1).2 ++ (onData parse (onData parse buffer c1).1 c2).2
    ∧ onData parse [] c1 = (c1, [])
    ∧ onData parse c1 (c2 ++ ['\n']) = ([], [.dispatched m])
    ∧ onData parse [] (joinLines [bad, good]) =
        ([], [.parseError bad, .dispatched mg]) := by
  refine ⟨?_, (onData_chunk_coherent parse buffer c1 c2).1,
    (onData_chunk_coherent parse buffer c1 c2).2, ?_, ?_, ?_⟩
  · exact onData_eq_of_join parse hls hfrag (by simp)
  · have h := @onData_eq_of_join parse [] c1
      (by intro l hl; exact absurd hl (List.not_mem_nil l)) hc1
      [] c1 (by simp [joinLines])
    simpa using h
  · have hmem : ∀ l ∈ [c1 ++ c2], '\n' ∉ l := by
      intro l hl
      rcases List.mem_cons.mp hl with rfl | hl
      · intro hin
        rcases List.mem_append.mp hin with hin | hin
        · exact hc1 hin
        · exact hc2 hin
      · exact absurd hl (List.not_mem_nil l)
    have h := @onData_eq_of_join parse [c1 ++ c2] []
      hmem (by simp) c1 (c2 ++ ['\n'])
      (by simp [joinLines])
    rw [h]
    simp [processLine, hblank, hparse]
  · have hmem : ∀ l ∈ [bad, good], '\n' ∉ l := by
      intro l hl
      rcases List.mem_cons.mp hl with rfl | hl
      · exact hbadNl
      · rcases List.mem_cons.mp hl with rfl | hl
        · exact hgoodNl
        · exact absurd hl (List.not_mem_nil l)
    have h := @onData_eq_of_join parse [bad, good] []
      hmem (by simp) [] (joinLines [bad, good]) (by simp)
    rw [h]
    simp [processLine, hbadBlank, hbad, hgoodBlank, hgood]

/-- C3 (witness): a concrete stream: one complete line plus fragment, a
document split across two chunks, and an unparseable line followed by a
parseable one. -/
theorem c3_witness :
    onData parseDigit [] (joinLines [['7']] ++ ['4']) =
      (['4'], [['7']].filterMap (processLine parseDigit))
    ∧ (onData parseDigit [] (['7'] ++ [])).1 =
        (onData parseDigit (onData parseDigit [] ['7']).1 []).1
    ∧ (onData parseDigit [] (['7'] ++ [])).2 =
        (onData parseDigit [] ['7']).2 ++
          (onData parseDigit (onData parseDigit [] ['7']).1 []).2
    ∧ onData parseDigit [] ['7'] = (['7'], [])
    ∧ onData parseDigit ['7'] ([] ++ ['\n']) = ([], [.dispatched (.num 7)])
    ∧ onData parseDigit [] (joinLines [['x'], ['8']]) =
        ([], [.parseError ['x'], .dispatched (.num 8)]) :=
  c3_stream_framing parseDigit [] ['7'] [] [['7']] ['4']
    (by decide) (by decide) (.num 7) (by decide) (by decide) rfl (by decide)
    ['x'] ['8'] (.num 8) (by decide) (by decide) rfl (by decide) (by decide) rfl

/-- C10: an input line that is empty or all-whitespace is silently skipped —
no dispatch, no error callback — and the rest of the chunk is still
processed. -/
theorem c10_blank_lines (parse : List Char → Option Json) (ws good : List Char)
    (mg : Json) (hws : isBlank ws = true) (hwsNl : '\n' ∉ ws)
    (hgoodNl : '\n' ∉ good) (hgoodBlank : isBlank good = false)
    (hgood : parse good = some mg) :
    processLine parse ws = none
    ∧ onData parse [] (joinLines [ws, good]) = ([], [.dispatched mg]) := by
  have h1 : processLine parse ws = none := by simp [processLine, hws]
  refine ⟨h1, ?_⟩
  have hmem : ∀ l ∈ [ws, good], '\n' ∉ l := by
    intro l hl
    rcases List.mem_cons.mp hl with rfl | hl
    · exact hwsNl
    · rcases List.mem_cons.mp hl with rfl | hl
      · exact hgoodNl
      · exact absurd hl (List.not_mem_nil l)
  have h := @onData_eq_of_join parse [ws, good] []
    hmem (by simp) [] (joinLines [ws, good]) (by simp)
  rw [h]
  simp [processLine, hws, hgoodBlank, hgood]

/-- C10 (witness): a whitespace-only line before a parseable line. -/
theorem c10_witness :
    processLine parseDigit [' '] = none
    ∧ onData parseDigit [] (joinLines [[' '], ['7']]) =
        ([], [.dispatched (.num 7)]) :=
  c10_blank_lines parseDigit [' '] ['7'] (.num 7) (by decide) (by decide)
    (by decide) (by decide) rfl

end Mcp
